import Mathlib

/-!
Verification development for the version-resolution and changelog-synthesis
engine of `repositoryupdater/addon.py`.

The Python source is shallowly embedded: pure fragments become Lean
functions, the mutable `Addon` attributes become explicit record fields,
exceptions become `Except`, and the external collaborators (the GitHub API,
the local `git` command, the `changelog-updater` tool and the `emoji`
library) become record fields of explicit model structures whose contracts
are documented where they are declared.
-/

namespace RepoUpdater

/-! Python string primitives -/

/-- Python `s.lstrip("v")`: removes every leading `'v'` character
(`str.lstrip` takes a set of characters and strips all leading members).
Used at `addon.py:200`, `addon.py:392` and `addon.py:459`. -/
def pyLstripV (s : String) : String :=
  ⟨s.data.dropWhile (fun c => c = 'v')⟩

/-- The first line of a commit message, `message.split("\n", maxsplit=1)[0]`, from `__message_first_line`
(`addon.py:371-372`): the characters before the first `'\n'`. -/
def firstLine (s : String) : String :=
  ⟨s.data.takeWhile (fun c => c ≠ '\n')⟩

/-- Python slicing `s[:n]`: the first `n` characters. -/
def pyTake (n : Nat) (s : String) : String :=
  ⟨s.data.take n⟩

/-- Membership test `pat in s` on Python strings: `pat` occurs as a
contiguous substring of `s`. -/
def listHasSub (pat : List Char) : List Char → Bool
  | [] => pat.isEmpty
  | c :: rest => pat.isPrefixOf (c :: rest) || listHasSub pat rest

/-- Python membership `pat in s`, at the `String` level. -/
def strHasSub (pat s : String) : Bool :=
  listHasSub pat.data s.data

/-- The character set of Python `str.rstrip()` with no argument. -/
def pyWhitespace (c : Char) : Bool :=
  c = ' ' || c = '\t' || c = '\n' || c = '\r' || c = '\x0b' || c = '\x0c'

/-- Drop the longest suffix of `l` whose characters all satisfy `p`. -/
def dropTrailing (p : Char → Bool) (l : List Char) : List Char :=
  (l.reverse.dropWhile p).reverse

/-- Python `s.rstrip()`. -/
def pyRstrip (l : List Char) : List Char :=
  dropTrailing pyWhitespace l

/-- The suffix of `l` strictly after its last `'\n'` (all of `l` when no
`'\n'` occurs). -/
def afterLastNewline : List Char → List Char
  | [] => []
  | c :: rest =>
      if '\n' ∈ rest then afterLastNewline rest
      else if c = '\n' then rest else c :: rest

/-- Embedding of `__read_last_nonempty_line` (`addon.py:405-415`) applied to a whole
file content: the byte-seeking loop skips the trailing newlines, backs up
to the previous newline, reads to the end and `rstrip`s, which is the
segment after the last `'\n'` of the content with its trailing newlines
removed, right-stripped.  (On an empty or all-newline file the `OSError`
handler reads the whole file, which the same formula yields.) -/
def lastNonemptyLine (s : String) : String :=
  ⟨pyRstrip (afterLastNewline (dropTrailing (fun c => c = '\n') s.data))⟩

/-! The `semver` library

`semver.parse` / `semver.parse_version_info` validate a version string
against the semantic-versioning grammar
`major.minor.patch[-prerelease][+build]` where `major`, `minor`, `patch`
are decimal numerals without leading zeros, `prerelease` is a dot-separated
list of identifiers that are either such numerals or alphanumeric/hyphen
words containing a non-digit, and `build` is a dot-separated list of
nonempty alphanumeric/hyphen words.  Invalid strings raise `ValueError`,
embedded here as `none`. -/

/-- A decimal numeral without leading zeros (`0|[1-9]\d*`). -/
def numeralNoLeadingZero : List Char → Bool
  | [] => false
  | [c] => c.isDigit
  | c :: rest => c.isDigit && c ≠ '0' && rest.all Char.isDigit

/-- A character allowed in prerelease / build identifiers. -/
def alnumHyph (c : Char) : Bool :=
  c.isAlpha || c.isDigit || c = '-'

/-- One prerelease identifier: a no-leading-zero numeral, or a nonempty
alphanumeric/hyphen word containing at least one non-digit. -/
def prereleaseIdent (l : List Char) : Bool :=
  numeralNoLeadingZero l ||
    (!l.isEmpty && l.all alnumHyph && l.any (fun c => !c.isDigit))

/-- One build identifier: a nonempty alphanumeric/hyphen word. -/
def buildIdent (l : List Char) : Bool :=
  !l.isEmpty && l.all alnumHyph

/-- Value of a digit string. -/
def digitsToNat (l : List Char) : Nat :=
  l.foldl (fun n c => n * 10 + (c.toNat - '0'.toNat)) 0

/-- Python `s.split(sep)` for a one-character separator, on character
lists (`"a..b"` gives `["a", "", "b"]`, `""` gives `[""]`). -/
def splitOnChar (sep : Char) : List Char → List (List Char)
  | [] => [[]]
  | c :: rest =>
      if c = sep then [] :: splitOnChar sep rest
      else
        match splitOnChar sep rest with
        | l :: ls => (c :: l) :: ls
        | [] => [[c]]

structure SemVer where
  major : Nat
  minor : Nat
  patch : Nat
  prerelease : Option String
  build : Option String
deriving DecidableEq, Repr

/-- Parse `major.minor.patch` (three no-leading-zero numerals). -/
def parseCoreNums (l : List Char) : Option (Nat × Nat × Nat) :=
  match splitOnChar '.' l with
  | [a, b, c] =>
      if numeralNoLeadingZero a && numeralNoLeadingZero b
          && numeralNoLeadingZero c then
        some (digitsToNat a, digitsToNat b, digitsToNat c)
      else none
  | _ => none

/-- Validate a prerelease section (dot-separated identifiers). -/
def validPrerelease (l : List Char) : Bool :=
  (splitOnChar '.' l).all prereleaseIdent

/-- Validate a build section (dot-separated identifiers). -/
def validBuild (l : List Char) : Bool :=
  (splitOnChar '.' l).all buildIdent

/-- Parser for `semver.parse_version_info`.  The `'+'` separating the build section
may occur at most once (no identifier may contain `'+'`); the prerelease
section starts at the first `'-'` after the patch numeral, because the
numerals themselves contain no hyphen. -/
def semverParse (s : String) : Option SemVer :=
  match splitOnChar '+' s.data with
  | [core] => semverParseCore core none
  | [core, build] =>
      if validBuild build then semverParseCore core (some ⟨build⟩) else none
  | _ => none
where
  semverParseCore (core : List Char) (build : Option String) :
      Option SemVer :=
    let (mmp, pre) := core.span (fun c => c ≠ '-')
    match pre with
    | [] =>
        match parseCoreNums mmp with
        | some (a, b, c) => some ⟨a, b, c, none, build⟩
        | none => none
    | _ :: preRest =>
        match parseCoreNums mmp with
        | some (a, b, c) =>
            if validPrerelease preRest then
              some ⟨a, b, c, some ⟨preRest⟩, build⟩
            else none
        | none => none

/-- Embedding of `_is_prerelease` (`addon.py:201-205`): the version has a semantic
prerelease segment, or, when semantic parsing fails, contains a literal
hyphen. -/
def isPrereleaseStr (version : String) : Bool :=
  match semverParse version with
  | some v => v.prerelease.isSome
  | none => version.data.contains '-'

/-! Data model

The release channels.  Modelled from the spec: `repositoryupdater/const.py`
(imported at `addon.py:31`) is not part of the sources; the spec's §3 fixes
the channel identifiers as `stable`, `beta`, `edge`. -/

/-- Modelled from the spec: the `stable` channel identifier of `const.py`. -/
def CHANNEL_STABLE : String := "stable"

/-- Modelled from the spec: the `beta` channel identifier of `const.py`. -/
def CHANNEL_BETA : String := "beta"

/-- Modelled from the spec: the `edge` channel identifier of `const.py`. -/
def CHANNEL_EDGE : String := "edge"

/-- A calendar date as carried by `GitRelease.published_at`. -/
structure PDate where
  year : Nat
  month : Nat
  day : Nat
deriving DecidableEq, Repr

/-- Zero-pad a month or day to two digits, as `strftime` does. -/
def pad2 (n : Nat) : String :=
  if n < 10 then "0" ++ toString n else toString n

/-- The formatted publish date `release.published_at.strftime("%Y-%m-%d")` from
`__published_at_formatted` (`addon.py:368-369`). -/
def formatDate (d : PDate) : String :=
  toString d.year ++ "-" ++ pad2 d.month ++ "-" ++ pad2 d.day

/-- A GitHub release as delivered by `Repository.get_releases`
(`{tag_name, prerelease, draft, published_at, body}`). -/
structure Release where
  tag_name : String
  prerelease : Bool
  draft : Bool
  published_at : PDate
  body : String
deriving DecidableEq, Repr

/-- A commit object; PyGithub `Commit` values compare by their `sha`. -/
structure CommitObj where
  sha : String
deriving DecidableEq, Repr

/-- The `.object` of a git reference returned by `get_git_ref`:
`type` is `"commit"` for a lightweight tag and `"tag"` for an annotated
tag object; `sha` identifies the pointed-to object. -/
structure GitRefObject where
  otype : String
  sha : String
deriving DecidableEq, Repr

/-- An annotated tag object returned by `get_git_tag`; `objectSha` is the
sha of the object the tag points to. -/
structure GitTag where
  objectSha : String
deriving DecidableEq, Repr

/-- A commit of a compare result or local log, with its message. -/
structure CommitData where
  sha : String
  message : String
deriving DecidableEq, Repr

/-- Model of the add-on's GitHub repository (the external API collaborator).

* `releases` is the `get_releases()` enumeration, delivered newest-first
  by the GitHub API.
* `gitRefs name` models `get_git_ref(name).object`; `none` is
  `UnknownObjectException`.
* `gitTags sha` models `get_git_tag(sha)`; `none` is a failed lookup.
* `getCommit ref` models `get_commit(ref)` (`GET /repos/…/commits/{ref}`):
  it accepts commit shas and branch/tag names (peeling names), but a sha
  that names an annotated tag object is rejected by GitHub with a 422
  `GithubException`, embedded as `none`.
* `headCommit` models `get_commits()[0]`, the newest default-branch commit
  (the repository is assumed nonempty).
* `hasContents path sha` models whether `get_contents(path, sha)` succeeds
  (`false` is `UnknownObjectException`). -/
structure RepoModel where
  releases : List Release
  gitRefs : String → Option GitRefObject
  gitTags : String → Option GitTag
  getCommit : String → Option CommitObj
  headCommit : CommitObj
  hasContents : String → String → Bool

/-- The fatal conditions of the loading phase: a `sys.exit(1)` or an
uncaught Python exception, each tagged by its origin. -/
inductive LoadErr where
  /-- uncaught `UnknownObjectException` from `get_git_ref` -/
  | refNotFound
  /-- failed `get_git_tag` dereference -/
  | tagNotFound
  /-- uncaught `GithubException` from `get_commit` -/
  | commitNotFound
  /-- An `AttributeError`: an attribute that is `None` (or unset) is
  dereferenced -/
  | attrNone
  /-- The `sys.exit(1)` at `addon.py:251-258`: no remote config file found -/
  | configNotFound
deriving DecidableEq, Repr

/-! Resolving the current version: `__load_current_info`
(`addon.py:170-190`, the commit-resolution part). -/

/-- The tag/commit resolution of `__load_current_info`: when the persisted
version parses as a semantic version, resolve the git ref `tags/v<version>`
(falling back to `tags/<version>` on `UnknownObjectException`) and pass the
ref's object sha to `get_commit` as-is — without dereferencing an annotated
tag object; otherwise look up `v<version>` (falling back to `<version>` on
`GithubException`) as a commit-ish name. -/
def resolveCurrentCommit (repo : RepoModel) (version : String) :
    Except LoadErr CommitObj :=
  if (semverParse version).isSome then
    let refo :=
      match repo.gitRefs ("tags/v" ++ version) with
      | some ro => some ro
      | none => repo.gitRefs ("tags/" ++ version)
    match refo with
    | none => Except.error LoadErr.refNotFound
    | some ro =>
        match repo.getCommit ro.sha with
        | some c => Except.ok c
        | none => Except.error LoadErr.commitNotFound
  else
    match repo.getCommit ("v" ++ version) with
    | some c => Except.ok c
    | none =>
        match repo.getCommit version with
        | some c => Except.ok c
        | none => Except.error LoadErr.commitNotFound

/-! Loading the latest info: `__load_latest_info` (`addon.py:197-276`). -/

/-- The derived version label `release.tag_name.lstrip("v")`
(`addon.py:200`, also `addon.py:392` and `addon.py:459`). -/
def releaseVersionLabel (r : Release) : String :=
  pyLstripV r.tag_name

/-- The `continue` condition of the release-selection loop
(`addon.py:206-212`): skip drafts, and skip pre-releases unless the
channel is `beta`; a release counts as a pre-release when its explicit
flag is set or `_is_prerelease` holds of its stripped tag. -/
def skipRelease (channel : String) (r : Release) : Bool :=
  r.draft ||
    ((r.prerelease || isPrereleaseStr (releaseVersionLabel r)) &&
      !(channel = CHANNEL_BETA : Bool))

/-- The release-selection loop (`addon.py:199-214`) with its two mutated
variables: the selected `latest_release` (first non-skipped release, if
any) and the final value of `latest_version`, which is reassigned on every
iteration and therefore ends as the label of the selected release, or of
the last examined release when all are skipped, or stays unset (`none`)
when there are no releases at all. -/
def selectionLoop (channel : String) :
    List Release → Option Release × Option String
  | [] => (none, none)
  | r :: rest =>
      if skipRelease channel r then
        match rest with
        | [] => (none, some (releaseVersionLabel r))
        | _ :: _ => selectionLoop channel rest
      else (some r, some (releaseVersionLabel r))

/-- Resolving the selected release to a commit (`addon.py:216-224`): look
up the ref of its tag, dereference an annotated tag object (one level)
via `get_git_tag`, and fetch the resulting commit. -/
def derefReleaseCommit (repo : RepoModel) (r : Release) :
    Except LoadErr CommitObj := do
  let ref ←
    match repo.gitRefs ("tags/" ++ r.tag_name) with
    | some ro => pure ro
    | none => throw LoadErr.refNotFound
  let sha ←
    if ref.otype = "tag" then
      match repo.gitTags ref.sha with
      | some t => pure t.objectSha
      | none => throw LoadErr.tagNotFound
    else
      pure ref.sha
  match repo.getCommit sha with
  | some c => pure c
  | none => throw LoadErr.commitNotFound

/-- The latest-version attributes mutated by `__load_latest_info` before
the configuration lookup. -/
structure RelState where
  latest_version : Option String
  latest_release : Option Release
  latest_commit : Option CommitObj
  latest_is_release : Bool
deriving Repr

/-- The edge-channel override (`addon.py:226-231`): fetch the newest
default-branch commit; when no release-based latest commit exists or the
newest commit's sha differs from it, latest becomes that raw commit, the
version label its 7-character short hash, and `latest_is_release` false. -/
def edgeOverride (channel : String) (head : CommitObj) (st : RelState) :
    RelState :=
  if channel = CHANNEL_EDGE then
    match st.latest_commit with
    | none =>
        { st with latest_version := some (pyTake 7 head.sha),
                  latest_commit := some head, latest_is_release := false }
    | some c =>
        if head.sha ≠ c.sha then
          { st with latest_version := some (pyTake 7 head.sha),
                    latest_commit := some head, latest_is_release := false }
        else st
  else st

/-- The state of `__load_latest_info` up to (and including) the edge override: the
state of the latest-version attributes when control reaches the
configuration lookup. -/
def relStateOf (repo : RepoModel) (channel : String) :
    Except LoadErr RelState := do
  let (sel, ver) := selectionLoop channel repo.releases
  let st0 : RelState ←
    match sel with
    | some r => do
        let c ← derefReleaseCommit repo r
        pure ⟨ver, some r, some c, true⟩
    | none => pure ⟨ver, none, none, true⟩
  pure (edgeOverride channel repo.headCommit st0)

/-- The candidate configuration filenames (`addon.py:233-238`): the three
canonical spellings, with the previously known filename moved to the
front when present. -/
def orderedConfigFiles (existing : Option String) : List String :=
  let files := ["config.json", "config.yaml", "config.yml"]
  match existing with
  | some e => if e ∈ files then e :: files.erase e else files
  | none => files

/-- The remote configuration lookup (`addon.py:240-258`): try the
candidate filenames in order at the latest commit, `sys.exit(1)` when
none exists. -/
def configLookup (repo : RepoModel) (addonTarget : String)
    (existing : Option String) (sha : String) : Except LoadErr String :=
  match (orderedConfigFiles existing).find?
      (fun cf => repo.hasContents (addonTarget ++ "/" ++ cf) sha) with
  | some cf => pure cf
  | none => throw LoadErr.configNotFound

/-- The successfully loaded latest-version information. -/
structure LatestInfo where
  latest_version : String
  latest_release : Option Release
  latest_commit : CommitObj
  latest_is_release : Bool
  config_file : String
deriving Repr

/-- Embedding of `__load_latest_info` (`addon.py:197-276`): release selection, tag
dereference, edge override, then the configuration lookup — which
evaluates `self.latest_commit.sha` (`addon.py:245`), an `AttributeError`
(`LoadErr.attrNone`) when no latest commit was ever assigned; finally the
`latest_version` attribute is read (`addon.py:273-276`). -/
def loadLatestInfo (repo : RepoModel) (channel : String)
    (existing : Option String) (addonTarget : String) :
    Except LoadErr LatestInfo := do
  let st ← relStateOf repo channel
  let c : CommitObj ←
    match st.latest_commit with
    | none => throw LoadErr.attrNone
    | some c => pure c
  let cf ← configLookup repo addonTarget existing c.sha
  let v : String ←
    match st.latest_version with
    | none => throw LoadErr.attrNone
    | some v => pure v
  pure ⟨v, st.latest_release, c, st.latest_is_release, cf⟩

/-! Update detection: `needs_update` (`addon.py:278-284`). -/

/-- The attributes `needs_update` reads. -/
structure UpdateState where
  updating : Bool
  current_version : String
  current_commit : CommitObj
  latest_version : String
  latest_commit : CommitObj
deriving DecidableEq, Repr

/-- Embedding of `needs_update(force)`: updating is enabled and (force, or the version
labels differ, or the commits differ — PyGithub commits compare by sha). -/
def needsUpdate (st : UpdateState) (force : Bool) : Bool :=
  st.updating &&
    (force || !(st.current_version = st.latest_version : Bool)
      || !(st.current_commit = st.latest_commit : Bool))

/-! Changelog synthesis: `generate_addon_changelog` (`addon.py:357-511`). -/

/-- The constant `Addon.CHANGELOG_HEADER` (`addon.py:357`). -/
def CHANGELOG_HEADER : String := "# Changelog\n\n"

/-- The constant `Addon.CHANGELOG_MARKER` (`addon.py:358`). -/
def CHANGELOG_MARKER : String := "generated by the repository updater action"

/-- The marker comment block re-appended after composition
(`addon.py:440-445`). -/
def markerBlock : String :=
  "\n" ++
  "[//]: # (do not remove these and the surrounding blank lines)\n" ++
  "[//]: # (" ++ CHANGELOG_MARKER ++ ")\n" ++
  "\n"

/-- Model of the external collaborators of `generate_addon_changelog`:

* `emojize` is `emoji.emojize(·, language="alias")`.
* `compose version date notes content` is the file content that the
  `changelog-updater` tool leaves behind on a zero exit, given the
  `--latest-version`, `--release-date` and `--release-notes` arguments
  it received and the content the file had when it ran
  (`__changelog_updater`, `addon.py:374-388`).
* `composeOk` is whether the tool exits zero; on a non-zero exit the tool
  is taken not to have modified the file. -/
structure ChangelogEnv where
  emojize : String → String
  compose : String → String → String → String → String
  composeOk : Bool

/-- Embedding of `__update_changelog(release)` (`addon.py:390-395`) applied to a file
content: the tool is invoked with the release's stripped tag, its
formatted publish date, and its emojized body. -/
def composeStep (env : ChangelogEnv) (rel : Release) (content : String) :
    String :=
  env.compose (pyLstripV rel.tag_name) (formatDate rel.published_at)
    (env.emojize rel.body) content

/-- A parsed result of the version-bump search (`addon.py:469-493`): the
`git log -G "^version:" --first-parent --max-count=1` query, with the stop
commit's sha and date taken from its header line and the new version value
from the first `+version:` diff line.  `none` models an empty log (no
version bump found). -/
structure VersionBump where
  sha : String
  date : String
  version : String
deriving DecidableEq, Repr

/-- The Python `+=` accumulation of the `changelog` string over a list of
appended chunks. -/
def appendChunks (init : String) (chunks : List String) : String :=
  chunks.foldl (fun acc c => acc ++ c) init

/-- One bullet line appended for a commit subject (`addon.py:464` and
`addon.py:507`). -/
def bulletChunk (msg : String) : String := "- " ++ msg ++ "\n"

/-- The truncation notice (`addon.py:504`). -/
def truncNote (counter : Nat) : String :=
  "\nNote: More than " ++ toString counter ++
    " commits, further commits are suppressed.\n"

/-- The stop-commit test `stop_commit_sha and commit_sha ==
stop_commit_sha` (`addon.py:501`); shas are nonempty, so the truthiness
test is just presence. -/
def stopMatches (stop : Option String) (sha : String) : Bool :=
  match stop with
  | some s => sha = s
  | none => false

/-- The commit-enumeration loop of the no-release branch
(`addon.py:494-507`): `commits` are the `(sha, subject)` pairs of
`git log --format=tformat:%H %s --first-parent` (each line split at its
first space), delivered newest-first by `git log`; the loop stops at the
stop commit, and past a counter of 100 it appends the truncation notice
and stops. -/
def commitLoop (stop : Option String) :
    Nat → List (String × String) → List String
  | _, [] => []
  | counter, (sha, msg) :: rest =>
      if stopMatches stop sha then []
      else if 100 ≤ counter then [truncNote counter]
      else bulletChunk msg :: commitLoop stop (counter + 1) rest

/-- The State-C changelog text as assembled before the final `emojize`
(`addon.py:453-508`):

* with a latest release, the header, an "Unreleased changes since" line,
  and one bullet per commit of `compare(latest_release.tag_name,
  current_commit.sha)` iterated through `reversed(...)` —
  `compareCommits` is the API's compare list, which GitHub delivers in
  chronological order, oldest first;
* with no release, the header, the "since" line of the version bump when
  one was found, and the commit loop over the first-parent log. -/
def stateCText (latest_release : Option Release)
    (compareCommits : List CommitData) (versionBump : Option VersionBump)
    (logFirstParent : List (String × String)) : String :=
  match latest_release with
  | some r =>
      appendChunks
        (CHANGELOG_HEADER ++
          "## Unreleased changes since " ++ releaseVersionLabel r ++
          " - " ++ formatDate r.published_at ++ "\n\n")
        ((compareCommits.reverse).map
          (fun c => bulletChunk (firstLine c.message)))
  | none =>
      let head :=
        match versionBump with
        | none => CHANGELOG_HEADER ++ "## Unreleased changes\n\n"
        | some vb =>
            CHANGELOG_HEADER ++ "## Unreleased changes since " ++
              vb.version ++ " - " ++ vb.date ++ "\n\n"
      appendChunks head
        (commitLoop (versionBump.map (fun vb => vb.sha)) 0 logFirstParent)

/-- The observable outcome of one `generate_addon_changelog` run:
the changelog file after the run (`none` when the file does not exist),
whether the run aborted through `sys.exit(1)` (in which case `file` is the
file's state at the moment of the abort), and whether the external
composition tool was invoked. -/
structure ChangelogResult where
  file : Option String
  aborted : Bool
  composeInvoked : Bool
deriving DecidableEq, Repr

/-- Embedding of `generate_addon_changelog` (`addon.py:360-511`) as a function of the
pre-run changelog file `file0` (`none` when absent):

* State A (`addon.py:422-445`): latest is a release and the channel is
  stable.  An existing file whose last non-empty line lacks the marker is
  removed; if the add-on is up to date and a (trusted) file exists the run
  skips; otherwise a missing file is first seeded with the header, the
  composition tool runs on the file, and the marker block is re-appended.
* State B (`addon.py:446-452`): latest is a release on another channel.
  The file is overwritten with the bare header, then the tool runs on it.
* State C (`addon.py:453-509`): latest is not a release.  The assembled
  text is emojized and written.

`current_release` is the release passed to `__update_changelog`; `update`
(`addon.py:120-122`) guarantees it is present whenever
`latest_is_release`. -/
def generateAddonChangelog (channel : String)
    (latest_is_release up_to_date : Bool) (current_release : Release)
    (latest_release : Option Release) (compareCommits : List CommitData)
    (versionBump : Option VersionBump)
    (logFirstParent : List (String × String)) (env : ChangelogEnv)
    (file0 : Option String) : ChangelogResult :=
  if latest_is_release ∧ channel = CHANNEL_STABLE then
    let file1 : Option String :=
      match file0 with
      | some s =>
          if strHasSub CHANGELOG_MARKER (lastNonemptyLine s) then some s
          else none
      | none => none
    match file1 with
    | some s =>
        if up_to_date then ⟨some s, false, false⟩
        else if env.composeOk then
          ⟨some (composeStep env current_release s ++ markerBlock),
            false, true⟩
        else ⟨some s, true, true⟩
    | none =>
        if env.composeOk then
          ⟨some (composeStep env current_release CHANGELOG_HEADER ++
            markerBlock), false, true⟩
        else ⟨some CHANGELOG_HEADER, true, true⟩
  else if latest_is_release then
    if env.composeOk then
      ⟨some (composeStep env current_release CHANGELOG_HEADER), false, true⟩
    else ⟨some CHANGELOG_HEADER, true, true⟩
  else
    ⟨some (env.emojize
      (stateCText latest_release compareCommits versionBump logFirstParent)),
      false, false⟩

/-! Theorems -/

/-- C4: for every add-on state and every boolean `force`, `needs_update`
returns true iff updating is enabled and (force, or the version labels
differ, or the commits differ); in particular it is true whenever the
commits differ (even when both labels are equal as text, the commit
disjunct fires).  The embedding is a pure function of the state, so the
call has no side effects. -/
theorem needs_update_characterization (st : UpdateState) (force : Bool) :
    (needsUpdate st force = true ↔
      st.updating = true ∧ (force = true ∨
        st.current_version ≠ st.latest_version ∨
        st.current_commit ≠ st.latest_commit)) ∧
    (st.updating = true → st.current_commit ≠ st.latest_commit →
      needsUpdate st force = true) := by
  constructor
  · simp only [needsUpdate, Bool.and_eq_true, Bool.or_eq_true,
      Bool.not_eq_true', decide_eq_false_iff_not, ne_eq]
    tauto
  · intro hu hc
    simp [needsUpdate, hu, hc]

def c4Demo : UpdateState :=
  ⟨true, "1.0.0", ⟨"aaa1111111111111111111111111111111111111"⟩,
    "1.0.0", ⟨"bbb2222222222222222222222222222222222222"⟩⟩

/-- Witness for C4: with equal labels but different commits,
`needs_update(False)` is true. -/
theorem needs_update_characterization_witness :
    needsUpdate c4Demo false = true :=
  (needs_update_characterization c4Demo false).2 (by decide) (by decide)

/-- C3: on the edge channel, when no release-based latest commit exists or
the newest default-branch commit differs from it, the latest becomes that
raw commit with `latest_is_release` false and the version label its short
hash — which has exactly 7 characters whenever the sha has at least 7 —
and otherwise the release-based latest stands unchanged. -/
theorem edge_override_characterization (head : CommitObj) (st : RelState) :
    ((st.latest_commit = none ∨
        ∃ c, st.latest_commit = some c ∧ c.sha ≠ head.sha) →
      edgeOverride CHANNEL_EDGE head st =
        { st with latest_version := some (pyTake 7 head.sha),
                  latest_commit := some head, latest_is_release := false }) ∧
    (∀ c, st.latest_commit = some c → c.sha = head.sha →
      edgeOverride CHANNEL_EDGE head st = st) ∧
    (7 ≤ head.sha.length → (pyTake 7 head.sha).length = 7) := by
  refine ⟨?_, ?_, ?_⟩
  · rintro (h | ⟨c, hc, hne⟩)
    · simp [edgeOverride, h]
    · simp [edgeOverride, hc, Ne.symm hne]
  · intro c hc hsha
    simp [edgeOverride, hc, hsha]
  · intro h
    have : (pyTake 7 head.sha).length = (head.sha.data.take 7).length := rfl
    rw [this, List.length_take]
    exact Nat.min_eq_left h

def c3Head : CommitObj := ⟨"0123456789abcdef0123456789abcdef01234567"⟩

def c3St : RelState := ⟨some "1.0.0", none, none, true⟩

/-- Witness for C3: with no release-based latest, the edge latest is the
raw head commit under its short hash. -/
theorem edge_override_characterization_witness :
    edgeOverride CHANNEL_EDGE c3Head c3St =
      { c3St with latest_version := some (pyTake 7 c3Head.sha),
                  latest_commit := some c3Head, latest_is_release := false } :=
  (edge_override_characterization c3Head c3St).1 (Or.inl rfl)

/-- The claim's reading of version-prefix stripping, following the spec's
words: remove a single leading `'v'` when present, and nothing more. -/
def specStripSingleV (s : String) : String :=
  match s.data with
  | 'v' :: rest => ⟨rest⟩
  | _ => s

/-- C9 is false as stated: the code's `lstrip("v")` removes every leading
`'v'`, so the tag `vv1.0.0` yields the label `1.0.0`, not the `v1.0.0`
that removing a single leading `'v'` would give. -/
theorem version_label_lstrip_counterexample :
    releaseVersionLabel ⟨"vv1.0.0", false, false, ⟨2024, 1, 1⟩, ""⟩ =
        "1.0.0" ∧
    releaseVersionLabel ⟨"vv1.0.0", false, false, ⟨2024, 1, 1⟩, ""⟩ ≠
      specStripSingleV "vv1.0.0" := by
  constructor
  · rfl
  · decide

/-- Does the character list start with two `'v'`s? -/
def beginsVV : List Char → Bool
  | 'v' :: 'v' :: _ => true
  | _ => false

/-- C9 amended: the derived version label removes every leading `'v'`
character (Python `str.lstrip` semantics); for a tag that does not begin
with two `'v'`s this coincides with removing a single leading `'v'`. -/
theorem version_label_lstrip_amended (r : Release) :
    releaseVersionLabel r =
        ⟨r.tag_name.data.dropWhile (fun c => c = 'v')⟩ ∧
    (beginsVV r.tag_name.data = false →
      releaseVersionLabel r = specStripSingleV r.tag_name) := by
  obtain ⟨tag, pre, dr, pa, bo⟩ := r
  obtain ⟨l⟩ := tag
  refine ⟨rfl, fun h => ?_⟩
  show pyLstripV ⟨l⟩ = specStripSingleV ⟨l⟩
  match l, h with
  | [], _ => rfl
  | 'v' :: [], _ => rfl
  | 'v' :: c :: rest, h =>
      have hc : c ≠ 'v' := by
        intro hcv
        subst hcv
        simp [beginsVV] at h
      show (⟨List.dropWhile (fun c => c = 'v') ('v' :: c :: rest)⟩ : String) =
        ⟨c :: rest⟩
      simp [List.dropWhile, hc]
  | c :: rest, _ =>
      by_cases hc : c = 'v'
      · subst hc
        match rest with
        | [] => rfl
        | d :: rest' =>
            have hd : d ≠ 'v' := by
              intro hdv
              subst hdv
              simp_all [beginsVV]
            show (⟨List.dropWhile (fun c => c = 'v')
                ('v' :: d :: rest')⟩ : String) = ⟨d :: rest'⟩
            simp [List.dropWhile, hd]
      · show (⟨List.dropWhile (fun c' => c' = 'v') (c :: rest)⟩ : String) =
          specStripSingleV ⟨c :: rest⟩
        rw [List.dropWhile_cons_of_neg (by simpa using hc)]
        unfold specStripSingleV
        split
        · next heq => simp_all
        · rfl

/-- Witness for the C9 amendment at the ordinary tag `v1.0.0`. -/
theorem version_label_lstrip_amended_witness :
    releaseVersionLabel ⟨"v1.0.0", false, false, ⟨2024, 1, 1⟩, ""⟩ =
      specStripSingleV "v1.0.0" :=
  (version_label_lstrip_amended
    ⟨"v1.0.0", false, false, ⟨2024, 1, 1⟩, ""⟩).2 (by decide)

def demoRel : Release := ⟨"v1.3.0", false, false, ⟨2024, 3, 1⟩, "Fixed bug"⟩

def c7Env : ChangelogEnv := ⟨fun s => s, fun _ _ _ c => c, false⟩

/-- C7 is false in its no-partial-write part: in State B the file is
overwritten with the bare header before the composition tool runs, so when
the tool fails the run aborts with the changelog file already changed from
its pre-synthesis content. -/
theorem changelog_compose_failure_counterexample :
    (generateAddonChangelog CHANNEL_BETA true false demoRel (some demoRel)
        [] none [] c7Env (some "old content")).aborted = true ∧
    (generateAddonChangelog CHANNEL_BETA true false demoRel (some demoRel)
        [] none [] c7Env (some "old content")).file ≠ some "old content" := by
  decide

/-- C7 amended: a composition failure still aborts the run, but the
changelog file is not rolled back: at the abort it holds just the fixed
header — in State B the header overwrite always precedes composition, and
in State A the same happens whenever the pre-existing file was absent or
legacy (marker missing, file removed and re-seeded). -/
theorem changelog_compose_failure_amended (channel : String) (up : Bool)
    (rel : Release) (lr : Option Release) (cc : List CommitData)
    (vb : Option VersionBump) (log : List (String × String))
    (env : ChangelogEnv) (file0 : Option String)
    (hfail : env.composeOk = false) :
    (channel ≠ CHANNEL_STABLE →
      generateAddonChangelog channel true up rel lr cc vb log env file0 =
        ⟨some CHANGELOG_HEADER, true, true⟩) ∧
    (∀ s, file0 = some s →
      strHasSub CHANGELOG_MARKER (lastNonemptyLine s) = false →
      generateAddonChangelog CHANNEL_STABLE true up rel lr cc vb log env
          file0 = ⟨some CHANGELOG_HEADER, true, true⟩) := by
  constructor
  · intro hch
    simp [generateAddonChangelog, hch, hfail]
  · intro s hs hleg
    subst hs
    simp [generateAddonChangelog, hleg, hfail]

/-- Witness for the C7 amendment on the beta channel. -/
theorem changelog_compose_failure_amended_witness :
    generateAddonChangelog CHANNEL_BETA true false demoRel none [] none []
      c7Env (some "old content") = ⟨some CHANGELOG_HEADER, true, true⟩ :=
  (changelog_compose_failure_amended CHANNEL_BETA false demoRel none []
    none [] c7Env (some "old content") rfl).1 (by decide)

/-- A repository whose tag `v1.2.3` is an annotated tag: the ref's object
is the tag object `tagobj111` (type `"tag"`), the tag object points to the
commit `commit222`, and `get_commit` accepts only the commit sha (GitHub
rejects an annotated tag object's sha with a 422). -/
def c8Repo : RepoModel where
  releases := []
  gitRefs := fun n =>
    if n = "tags/v1.2.3" then some ⟨"tag", "tagobj111"⟩ else none
  gitTags := fun s => if s = "tagobj111" then some ⟨"commit222"⟩ else none
  getCommit := fun s => if s = "commit222" then some ⟨"commit222"⟩ else none
  headCommit := ⟨"commit222"⟩
  hasContents := fun _ _ => true

/-- C8 (code bug): resolving the current version `1.2.3` through the
annotated tag `v1.2.3` passes the tag object's sha straight to
`get_commit` and fails, instead of dereferencing to the underlying commit
— while the latest-release path of the very same code does dereference it
and reaches the commit. -/
theorem current_annotated_tag_not_dereferenced :
    resolveCurrentCommit c8Repo "1.2.3" =
        Except.error LoadErr.commitNotFound ∧
    derefReleaseCommit c8Repo ⟨"v1.2.3", false, false, ⟨2024, 1, 1⟩, ""⟩ =
      Except.ok ⟨"commit222"⟩ :=
  ⟨rfl, rfl⟩

/-- The claim's pre-release notion, in its own words: the explicit flag,
or a semantic-version prerelease segment, or a literal hyphen in the label
when semantic parsing fails. -/
def specPrerelease (r : Release) : Prop :=
  r.prerelease = true ∨
    (∃ v, semverParse (releaseVersionLabel r) = some v ∧
      v.prerelease.isSome = true) ∨
    (semverParse (releaseVersionLabel r) = none ∧
      (releaseVersionLabel r).data.contains '-' = true)

/-- The claim's eligibility notion for a release: not a draft, and a
pre-release only survives on the beta channel. -/
def eligibleRelease (channel : String) (r : Release) : Prop :=
  r.draft = false ∧ (specPrerelease r → channel = CHANNEL_BETA)

/-- The claim's pre-release notion agrees with the code's
`release.prerelease or _is_prerelease(...)` test. -/
lemma specPrerelease_iff (r : Release) :
    specPrerelease r ↔
      (r.prerelease || isPrereleaseStr (releaseVersionLabel r)) = true := by
  rcases hp : semverParse (releaseVersionLabel r) with _ | v
  · simp only [specPrerelease, isPrereleaseStr, hp, Bool.or_eq_true]
    constructor
    · rintro (hfl | ⟨w, hw, _⟩ | ⟨_, hcont⟩)
      · exact Or.inl hfl
      · cases hw
      · exact Or.inr hcont
    · rintro (hfl | hcont)
      · exact Or.inl hfl
      · exact Or.inr (Or.inr ⟨by trivial, hcont⟩)
  · simp only [specPrerelease, isPrereleaseStr, hp, Bool.or_eq_true]
    constructor
    · rintro (hfl | ⟨w, hw, hws⟩ | ⟨hcontra, _⟩)
      · exact Or.inl hfl
      · cases hw; exact Or.inr hws
      · cases hcontra
    · rintro (hfl | hseg)
      · exact Or.inl hfl
      · exact Or.inr (Or.inl ⟨v, rfl, hseg⟩)

/-- The loop's `continue` test agrees with the negation of the claim's
eligibility notion. -/
lemma skipRelease_iff (channel : String) (r : Release) :
    skipRelease channel r = true ↔ ¬ eligibleRelease channel r := by
  unfold skipRelease eligibleRelease
  cases hd : r.draft <;>
    cases hb : (r.prerelease || isPrereleaseStr (releaseVersionLabel r)) <;>
      by_cases hch : channel = CHANNEL_BETA <;>
        simp [hd, hch, hb, specPrerelease_iff]

/-- C2: the selection loop scans the releases in delivery order (the API
delivers them newest-first): when it selects a release, that release is
eligible and everything delivered before it — everything newer — is not;
when it selects none, no delivered release is eligible, and the
release-based latest is absent. -/
theorem latest_release_selection (channel : String) (rs : List Release) :
    (∀ r, (selectionLoop channel rs).1 = some r →
      ∃ pre post, rs = pre ++ r :: post ∧ eligibleRelease channel r ∧
        ∀ x ∈ pre, ¬ eligibleRelease channel x) ∧
    ((selectionLoop channel rs).1 = none →
      ∀ x ∈ rs, ¬ eligibleRelease channel x) := by
  induction rs with
  | nil =>
      refine ⟨fun r h => by simp [selectionLoop] at h, fun _ x hx => ?_⟩
      cases hx
  | cons r rest ih =>
      by_cases hskip : skipRelease channel r = true
      · have hnel : ¬ eligibleRelease channel r :=
          (skipRelease_iff channel r).mp hskip
        cases rest with
        | nil =>
            refine ⟨fun r' h => ?_, fun _ x hx => ?_⟩
            · simp [selectionLoop, hskip] at h
            · rcases List.mem_singleton.mp hx with rfl
              exact hnel
        | cons r2 rest' =>
            have hloop : selectionLoop channel (r :: r2 :: rest') =
                selectionLoop channel (r2 :: rest') := by
              simp [selectionLoop, hskip]
            refine ⟨fun r' h => ?_, fun h x hx => ?_⟩
            · rw [hloop] at h
              obtain ⟨pre, post, hsplit, helig, hpre⟩ := ih.1 r' h
              refine ⟨r :: pre, post, by rw [hsplit]; rfl, helig, ?_⟩
              intro x hx
              rcases List.mem_cons.mp hx with rfl | hx'
              · exact hnel
              · exact hpre x hx'
            · rw [hloop] at h
              rcases List.mem_cons.mp hx with rfl | hx'
              · exact hnel
              · exact ih.2 h x hx'
      · have helig : eligibleRelease channel r := by
          by_contra hne
          exact hskip ((skipRelease_iff channel r).mpr hne)
        refine ⟨fun r' h => ?_, fun h => ?_⟩
        · have : (some r : Option Release) = some r' := by
            simpa [selectionLoop, hskip] using h
          cases this
          exact ⟨[], rest, rfl, helig, by simp⟩
        · simp [selectionLoop, hskip] at h

def c2Draft : Release := ⟨"v2.0.0", false, true, ⟨2024, 1, 2⟩, ""⟩

def c2Ok : Release := ⟨"v1.9.0", false, false, ⟨2024, 1, 1⟩, ""⟩

/-- Witness for C2: a newest draft is skipped and the next release is
selected. -/
theorem latest_release_selection_witness :
    ∃ pre post, [c2Draft, c2Ok] = pre ++ c2Ok :: post ∧
      eligibleRelease CHANNEL_STABLE c2Ok ∧
      ∀ x ∈ pre, ¬ eligibleRelease CHANNEL_STABLE x :=
  (latest_release_selection CHANNEL_STABLE [c2Draft, c2Ok]).1 c2Ok rfl

/-- When the selection loop selects a release, the `latest_version`
variable ends as that release's stripped label. -/
lemma selectionLoop_version_of_some (channel : String) (rs : List Release)
    (r : Release) (h : (selectionLoop channel rs).1 = some r) :
    (selectionLoop channel rs).2 = some (releaseVersionLabel r) := by
  induction rs with
  | nil => simp [selectionLoop] at h
  | cons r0 rest ih =>
      by_cases hskip : skipRelease channel r0 = true
      · cases rest with
        | nil => simp [selectionLoop, hskip] at h
        | cons r2 rest' =>
            have hloop : selectionLoop channel (r0 :: r2 :: rest') =
                selectionLoop channel (r2 :: rest') := by
              simp [selectionLoop, hskip]
            rw [hloop] at h ⊢
            exact ih h
      · have h1 : (some r0 : Option Release) = some r := by
          simpa [selectionLoop, hskip] using h
        cases h1
        simp [selectionLoop, hskip]

/-- The lookup `configLookup` fails only with `configNotFound`. -/
lemma configLookup_error (repo : RepoModel) (tgt : String)
    (existing : Option String) (sha : String) (e : LoadErr)
    (h : configLookup repo tgt existing sha = Except.error e) :
    e = LoadErr.configNotFound := by
  unfold configLookup at h
  rcases hf : (orderedConfigFiles existing).find?
      (fun cf => repo.hasContents (tgt ++ "/" ++ cf) sha) with _ | cf
  · rw [hf] at h
    cases h
    rfl
  · rw [hf] at h
    cases h

/-- C10: on a non-edge channel (stable or beta), when no delivered release
survives the selection filter, `__load_latest_info` does not report an
absent latest — it crashes: the configuration lookup dereferences the
never-assigned latest commit (`AttributeError`).  Under the precondition
that some release is selected and resolves to a commit, the state reaching
the configuration lookup carries a present latest commit, and that
dereference cannot fail. -/
theorem stable_beta_no_eligible_release_crash (repo : RepoModel)
    (channel : String) (existing : Option String) (addonTarget : String)
    (hch : channel ≠ CHANNEL_EDGE) :
    ((selectionLoop channel repo.releases).1 = none →
      loadLatestInfo repo channel existing addonTarget =
        Except.error LoadErr.attrNone) ∧
    (∀ r c, (selectionLoop channel repo.releases).1 = some r →
      derefReleaseCommit repo r = Except.ok c →
      (∃ st, relStateOf repo channel = Except.ok st ∧
        st.latest_commit = some c) ∧
      loadLatestInfo repo channel existing addonTarget ≠
        Except.error LoadErr.attrNone) := by
  constructor
  · intro hnone
    have hst : relStateOf repo channel =
        Except.ok ⟨(selectionLoop channel repo.releases).2, none, none,
          true⟩ := by
      unfold relStateOf
      rcases hp : selectionLoop channel repo.releases with ⟨sel, ver⟩
      rw [hp] at hnone
      simp at hnone
      subst hnone
      simp [edgeOverride, hch, bind, Except.bind, pure, Except.pure]
    unfold loadLatestInfo
    rw [hst]
    rfl
  · intro r c hsel hderef
    have hver := selectionLoop_version_of_some channel repo.releases r hsel
    have hst : relStateOf repo channel =
        Except.ok ⟨some (releaseVersionLabel r), some r, some c, true⟩ := by
      unfold relStateOf
      rcases hp : selectionLoop channel repo.releases with ⟨sel, ver⟩
      rw [hp] at hsel hver
      simp at hsel hver
      subst hsel
      subst hver
      simp only [bind, Except.bind, pure, Except.pure, hderef]
      simp [edgeOverride, hch]
    refine ⟨⟨_, hst, rfl⟩, ?_⟩
    unfold loadLatestInfo
    rw [hst]
    simp only [bind, Except.bind, pure, Except.pure]
    rcases hcl : configLookup repo addonTarget existing c.sha with e | cf
    · have he := configLookup_error repo addonTarget existing c.sha e hcl
      subst he
      simp
    · simp

def c10Repo : RepoModel where
  releases := [⟨"v1.0.0", false, true, ⟨2024, 1, 1⟩, ""⟩]
  gitRefs := fun _ => none
  gitTags := fun _ => none
  getCommit := fun _ => none
  headCommit := ⟨"headsha1234"⟩
  hasContents := fun _ _ => false

/-- Witness for C10: with the only release a draft, loading the latest
info on the stable channel ends in the `None` dereference. -/
theorem stable_beta_no_eligible_release_crash_witness :
    loadLatestInfo c10Repo CHANNEL_STABLE none "addon" =
      Except.error LoadErr.attrNone :=
  (stable_beta_no_eligible_release_crash c10Repo CHANNEL_STABLE none "addon"
    (by decide)).1 rfl

/-- Below the cap, every commit becomes a bullet and nothing else is
emitted. -/
lemma commitLoop_no_stop_short (l : List (String × String)) (c : Nat)
    (h : l.length + c ≤ 100) :
    commitLoop none c l = l.map (fun p => bulletChunk p.2) := by
  induction l generalizing c with
  | nil => rfl
  | cons p rest ih =>
      obtain ⟨sha, msg⟩ := p
      have hc : ¬ 100 ≤ c := by simp at h; omega
      rw [show commitLoop none c ((sha, msg) :: rest) =
            bulletChunk msg :: commitLoop none (c + 1) rest by
          simp [commitLoop, stopMatches, hc]]
      rw [ih (c + 1) (by simp at h ⊢; omega)]
      rfl

/-- Past the cap, exactly the first `100 - c` commits become bullets,
followed by the truncation notice (fired at counter 100). -/
lemma commitLoop_no_stop_long (l : List (String × String)) (c : Nat)
    (h1 : c ≤ 100) (h2 : 100 < l.length + c) :
    commitLoop none c l =
      (l.take (100 - c)).map (fun p => bulletChunk p.2) ++
        [truncNote 100] := by
  induction l generalizing c with
  | nil => simp at h2; omega
  | cons p rest ih =>
      obtain ⟨sha, msg⟩ := p
      by_cases hc : 100 ≤ c
      · have hc100 : c = 100 := by omega
        subst hc100
        simp [commitLoop, stopMatches]
      · rw [show commitLoop none c ((sha, msg) :: rest) =
              bulletChunk msg :: commitLoop none (c + 1) rest by
            simp [commitLoop, stopMatches, hc]]
        rw [ih (c + 1) (by omega) (by simp at h2 ⊢; omega)]
        have hsub : 100 - c = (100 - (c + 1)) + 1 := by omega
        rw [hsub, List.take_succ_cons]
        rfl

/-- C5: in State C with no prior release and no version-bump stop commit,
the generated text is the fixed header followed by the commit loop's
chunks, and the loop emits one bullet per commit with no truncation notice
when the history has at most 100 commits, and exactly the first 100
bullets followed by the single truncation notice when it has 101 or
more. -/
theorem state_c_commit_cap (cc : List CommitData)
    (log : List (String × String)) :
    (stateCText none cc none log =
      appendChunks (CHANGELOG_HEADER ++ "## Unreleased changes\n\n")
        (commitLoop none 0 log)) ∧
    (log.length ≤ 100 →
      commitLoop none 0 log = log.map (fun p => bulletChunk p.2)) ∧
    (101 ≤ log.length →
      commitLoop none 0 log =
        (log.take 100).map (fun p => bulletChunk p.2) ++ [truncNote 100]) :=
  ⟨rfl, fun h => commitLoop_no_stop_short log 0 (by omega),
    fun h => commitLoop_no_stop_long log 0 (by omega) (by omega)⟩

def c5Log : List (String × String) :=
  (List.range 101).map (fun i => (toString i, "subject"))

/-- Witness for C5: a 101-commit history is truncated to 100 bullets plus
the notice. -/
theorem state_c_commit_cap_witness :
    101 ≤ c5Log.length ∧
    commitLoop none 0 c5Log =
      (c5Log.take 100).map (fun p => bulletChunk p.2) ++ [truncNote 100] :=
  ⟨by decide, (state_c_commit_cap [] c5Log).2.2 (by decide)⟩

/-! Line-level view of the generated changelog text -/

/-- The lines of a string: the `'\n'`-separated segments of its
characters. -/
def linesOf (s : String) : List String :=
  (splitOnChar '\n' s.data).map (fun l => ⟨l⟩)

lemma strData_append (a b : String) : (a ++ b).data = a.data ++ b.data := by
  cases a
  cases b
  rfl

lemma strMk_data (s : String) : (⟨s.data⟩ : String) = s := by
  cases s
  rfl

lemma appendChunks_data (chunks : List String) (init : String) :
    (appendChunks init chunks).data =
      init.data ++ (chunks.map String.data).flatten := by
  induction chunks generalizing init with
  | nil => simp [appendChunks]
  | cons c cs ih =>
      show (appendChunks (init ++ c) cs).data = _
      rw [ih (init ++ c), strData_append]
      simp

lemma splitOnChar_append_sep (sep : Char) (a b : List Char) (h : sep ∉ a) :
    splitOnChar sep (a ++ sep :: b) = a :: splitOnChar sep b := by
  induction a with
  | nil => simp [splitOnChar]
  | cons c a' ih =>
      have hc : c ≠ sep := fun hcs => h (hcs ▸ List.mem_cons_self c a')
      have ha' : sep ∉ a' := fun hm => h (List.mem_cons_of_mem c hm)
      simp [splitOnChar, hc, ih ha']

lemma splitOnChar_cons_sep (sep : Char) (b : List Char) :
    splitOnChar sep (sep :: b) = [] :: splitOnChar sep b := by
  simp [splitOnChar]

/-- Splitting the concatenation of bullet chunks: one line per message,
plus the empty segment after the final newline. -/
lemma splitOnChar_bulletJoin (msgs : List String)
    (h : ∀ m ∈ msgs, '\n' ∉ m.data) :
    splitOnChar '\n' (((msgs.map bulletChunk).map String.data).flatten) =
      msgs.map (fun m => ("- " ++ m).data) ++ [[]] := by
  induction msgs with
  | nil => rfl
  | cons m ms ih =>
      have hm : '\n' ∉ m.data := h m (List.mem_cons_self m ms)
      have hrest : ∀ x ∈ ms, '\n' ∉ x.data :=
        fun x hx => h x (List.mem_cons_of_mem m hx)
      have hdata : (bulletChunk m).data = ("- " ++ m).data ++ ['\n'] := by
        show (("- " ++ m) ++ "\n").data = _
        rw [strData_append]
      have hnom : '\n' ∉ ("- " ++ m).data := by
        rw [strData_append]
        intro hmem
        rcases List.mem_append.mp hmem with h1 | h2
        · simp at h1
        · exact hm h2
      simp only [List.map_cons, List.flatten_cons, hdata]
      rw [List.append_assoc, List.singleton_append,
        splitOnChar_append_sep '\n' _ _ hnom, ih hrest]
      rfl

lemma firstLine_no_newline (s : String) : '\n' ∉ (firstLine s).data := by
  intro hmem
  have := List.mem_takeWhile_imp hmem
  simp at this

/-- C1 is false as stated: on a repository with no releases and no version
bump, a first-parent history of two commits — chronologically "A" then
"B", which `git log` delivers newest-first as `[B, A]` — produces the
bullets "- B", "- A" in that order, not the oldest-first "- A", "- B" the
claim requires; likewise, with a prior release, a compare list delivered
oldest-first as `[A, B]` is reversed into "- B", "- A". -/
theorem state_c_bullet_order_counterexample :
    linesOf (stateCText none [] none [("sha2", "B"), ("sha1", "A")]) =
      ["# Changelog", "", "## Unreleased changes", "", "- B", "- A", ""] ∧
    linesOf (stateCText none [] none [("sha2", "B"), ("sha1", "A")]) ≠
      ["# Changelog", "", "## Unreleased changes", "", "- A", "- B", ""] ∧
    linesOf (stateCText (some demoRel) [⟨"sha1", "A"⟩, ⟨"sha2", "B"⟩]
        none []) =
      ["# Changelog", "",
        "## Unreleased changes since 1.3.0 - 2024-03-01", "",
        "- B", "- A", ""] := by
  refine ⟨by decide, by decide, by decide⟩

/-- C1 amended: in State C the bullets are emitted newest-first, each
bullet the first line of its commit's message.  With a prior release the
compare list — which the API delivers oldest-first — appears reversed;
with no release (and no version bump) the first-parent log — which
`git log` delivers newest-first — appears in delivery order.  The
hypotheses only rule out newlines inside the release label, the formatted
date and the log subjects, and keep the log below the truncation cap. -/
theorem state_c_bullet_order (r : Release) (cc : List CommitData)
    (vb : Option VersionBump) (log : List (String × String))
    (hlabel : '\n' ∉ (releaseVersionLabel r).data)
    (hdate : '\n' ∉ (formatDate r.published_at).data)
    (hlog : log.length ≤ 100)
    (hmsg : ∀ p ∈ log, '\n' ∉ (p.2 : String).data) :
    linesOf (stateCText (some r) cc vb log) =
      ["# Changelog", "",
        "## Unreleased changes since " ++ releaseVersionLabel r ++ " - " ++
          formatDate r.published_at, ""] ++
        (cc.reverse).map (fun c => "- " ++ firstLine c.message) ++ [""] ∧
    linesOf (stateCText none cc none log) =
      ["# Changelog", "", "## Unreleased changes", ""] ++
        log.map (fun p => "- " ++ p.2) ++ [""] := by
  have hmkNil : (⟨([] : List Char)⟩ : String) = "" := rfl
  constructor
  · show linesOf (appendChunks _ _) = _
    unfold linesOf
    rw [appendChunks_data]
    have hmm : (cc.reverse).map (fun c => bulletChunk (firstLine c.message))
        = ((cc.reverse).map (fun c => firstLine c.message)).map
            bulletChunk := by
      rw [List.map_map]
      rfl
    rw [hmm]
    have hsplit := splitOnChar_bulletJoin
      ((cc.reverse).map (fun c => firstLine c.message))
      (by
        intro m hmem
        obtain ⟨c, _, hc⟩ := List.mem_map.mp hmem
        rw [← hc]
        exact firstLine_no_newline c.message)
    have hhdr : '\n' ∉ ("## Unreleased changes since ".data ++
        ((releaseVersionLabel r).data ++ (" - ".data ++
          (formatDate r.published_at).data))) := by
      intro hmem
      rcases List.mem_append.mp hmem with h1 | h2
      · simp at h1
      · rcases List.mem_append.mp h2 with h3 | h4
        · exact hlabel h3
        · rcases List.mem_append.mp h4 with h5 | h6
          · simp at h5
          · exact hdate h6
    have hfull : ∀ J : List Char,
        (CHANGELOG_HEADER ++ "## Unreleased changes since " ++
          releaseVersionLabel r ++ " - " ++
          formatDate r.published_at ++ "\n\n").data ++ J =
        "# Changelog".data ++ '\n' ::
          ('\n' ::
            (("## Unreleased changes since ".data ++
                ((releaseVersionLabel r).data ++ (" - ".data ++
                  (formatDate r.published_at).data))) ++
              '\n' :: ('\n' :: J))) := by
      intro J
      have e0 : CHANGELOG_HEADER.data =
          "# Changelog".data ++ ['\n', '\n'] := rfl
      have e2 : ("\n\n" : String).data = ['\n', '\n'] := rfl
      simp only [strData_append, e0, e2, List.append_assoc,
        List.cons_append, List.nil_append]
    have hHDR : (⟨"## Unreleased changes since ".data ++
          ((releaseVersionLabel r).data ++ (" - ".data ++
            (formatDate r.published_at).data))⟩ : String) =
        "## Unreleased changes since " ++ releaseVersionLabel r ++
          " - " ++ formatDate r.published_at := by
      have hd : ("## Unreleased changes since " ++ releaseVersionLabel r ++
            " - " ++ formatDate r.published_at).data =
          "## Unreleased changes since ".data ++
            ((releaseVersionLabel r).data ++ (" - ".data ++
              (formatDate r.published_at).data)) := by
        simp [strData_append, List.append_assoc]
      rw [← hd, strMk_data]
    rw [hfull, splitOnChar_append_sep '\n' _ _ (by decide),
      splitOnChar_cons_sep, splitOnChar_append_sep '\n' _ _ hhdr,
      splitOnChar_cons_sep, hsplit]
    rw [List.map_cons, List.map_cons, List.map_cons, List.map_cons,
      List.map_append, List.map_map, List.map_map, hHDR]
    rfl
  · show List.map (fun l => (⟨l⟩ : String))
        (splitOnChar '\n'
          (appendChunks (CHANGELOG_HEADER ++ "## Unreleased changes\n\n")
            (commitLoop none 0 log)).data) = _
    rw [appendChunks_data, commitLoop_no_stop_short log 0 (by omega)]
    have hmm : log.map (fun p => bulletChunk p.2) =
        (log.map (fun p => p.2)).map bulletChunk := by
      rw [List.map_map]
      rfl
    rw [hmm]
    have hsplit := splitOnChar_bulletJoin (log.map (fun p => p.2))
      (by
        intro m hmem
        obtain ⟨p, hp, hc⟩ := List.mem_map.mp hmem
        rw [← hc]
        exact hmsg p hp)
    have hfull : ∀ J : List Char,
        (CHANGELOG_HEADER ++ "## Unreleased changes\n\n").data ++ J =
        "# Changelog".data ++ '\n' ::
          ('\n' ::
            ("## Unreleased changes".data ++ '\n' :: ('\n' :: J))) := by
      intro J
      have e0 : (CHANGELOG_HEADER ++ "## Unreleased changes\n\n").data =
          ("# Changelog".data ++ ['\n', '\n']) ++
            ("## Unreleased changes".data ++ ['\n', '\n']) := rfl
      simp only [e0, List.append_assoc, List.cons_append, List.nil_append]
    rw [hfull, splitOnChar_append_sep '\n' _ _ (by decide),
      splitOnChar_cons_sep, splitOnChar_append_sep '\n' _ _ (by decide),
      splitOnChar_cons_sep, hsplit]
    rw [List.map_cons, List.map_cons, List.map_cons, List.map_cons,
      List.map_append, List.map_map, List.map_map]
    rfl

/-- Witness for the C1 amendment on a concrete two-commit history
delivered newest-first by `git log`. -/
theorem state_c_bullet_order_witness :
    linesOf (stateCText none [] none [("sha2", "B"), ("sha1", "A")]) =
      ["# Changelog", "", "## Unreleased changes", ""] ++
        [("sha2", "B"), ("sha1", "A")].map
          (fun p => "- " ++ p.2) ++ [""] :=
  (state_c_bullet_order demoRel [] none [("sha2", "B"), ("sha1", "A")]
    (by decide) (by decide) (by decide) (by decide)).2

/-! The trust-marker block and State-A idempotence -/

/-- The marker line left near the end of a trusted changelog. -/
def markerLine : String := "[//]: # (" ++ CHANGELOG_MARKER ++ ")"

lemma dropWhile_append_left (p : Char → Bool) (u v : List Char)
    (h : u.dropWhile p ≠ []) :
    (u ++ v).dropWhile p = u.dropWhile p ++ v := by
  induction u with
  | nil => simp at h
  | cons c u' ih =>
      by_cases hc : p c = true
      · simp only [List.cons_append, List.dropWhile_cons, hc] at h ⊢
        exact ih h
      · simp [List.cons_append, List.dropWhile_cons, hc]

lemma dropTrailing_append (p : Char → Bool) (a b : List Char)
    (h : dropTrailing p b ≠ []) :
    dropTrailing p (a ++ b) = a ++ dropTrailing p b := by
  have hne : b.reverse.dropWhile p ≠ [] := by
    intro hnil
    apply h
    unfold dropTrailing
    rw [hnil]
    rfl
  unfold dropTrailing
  rw [List.reverse_append, dropWhile_append_left p b.reverse a.reverse hne,
    List.reverse_append, List.reverse_reverse]

lemma afterLastNewline_append (a b : List Char) :
    afterLastNewline (a ++ '\n' :: b) = afterLastNewline ('\n' :: b) := by
  induction a with
  | nil => rfl
  | cons c a' ih =>
      have hmem : '\n' ∈ a' ++ '\n' :: b := by simp
      show afterLastNewline (c :: (a' ++ '\n' :: b)) = _
      simp only [afterLastNewline, if_pos hmem]
      exact ih

lemma afterLastNewline_cons_append (b c : List Char) :
    afterLastNewline ('\n' :: (b ++ '\n' :: c)) =
      afterLastNewline ('\n' :: c) := by
  have h := afterLastNewline_append ('\n' :: b) c
  simpa using h

lemma afterLastNewline_cons_no (b : List Char) (h : '\n' ∉ b) :
    afterLastNewline ('\n' :: b) = b := by
  simp [afterLastNewline, h]

/-- Appending the marker block to any content makes the last non-empty
line the marker line: the block supplies both the final newline structure
and the line itself, regardless of the preceding text. -/
lemma lastNonemptyLine_markerBlock (x : String) :
    lastNonemptyLine (x ++ markerBlock) = markerLine := by
  unfold lastNonemptyLine
  rw [strData_append]
  rw [dropTrailing_append _ x.data markerBlock.data (by decide)]
  rw [show dropTrailing (fun c => decide (c = '\n')) markerBlock.data =
      '\n' ::
        ("[//]: # (do not remove these and the surrounding blank lines)".data
          ++ '\n' :: markerLine.data) from by decide]
  rw [afterLastNewline_append x.data _, afterLastNewline_cons_append,
    afterLastNewline_cons_no markerLine.data (by decide)]
  rw [show pyRstrip markerLine.data = markerLine.data from by decide,
    strMk_data]

/-- C6: in State A, when the add-on is already up to date and the existing
changelog's last non-empty line carries the trust marker, synthesis is a
no-op: the file is returned unchanged and the composition tool is not
invoked.  Consequently a second State-A run (up to date, same inputs)
after any successful State-A run is a no-op, because a successful run
always leaves the marker block at the end of the file. -/
theorem state_a_skip_noop (env : ChangelogEnv) (rel : Release)
    (lr : Option Release) (cc : List CommitData) (vb : Option VersionBump)
    (log : List (String × String)) (s : String)
    (hmark : strHasSub CHANGELOG_MARKER (lastNonemptyLine s) = true) :
    generateAddonChangelog CHANNEL_STABLE true true rel lr cc vb log env
        (some s) = ⟨some s, false, false⟩ ∧
    (∀ t, env.composeOk = true →
      generateAddonChangelog CHANNEL_STABLE true true rel lr cc vb log env
          (generateAddonChangelog CHANNEL_STABLE true false rel lr cc vb
            log env t).file =
        ⟨(generateAddonChangelog CHANNEL_STABLE true false rel lr cc vb
            log env t).file, false, false⟩) := by
  have hmark2 : ∀ y : String,
      strHasSub CHANGELOG_MARKER
        (lastNonemptyLine (y ++ markerBlock)) = true := by
    intro y
    rw [lastNonemptyLine_markerBlock]
    decide
  constructor
  · simp [generateAddonChangelog, hmark]
  · intro t hok
    rcases t with _ | u
    · simp [generateAddonChangelog, hok, hmark2]
    · by_cases hu : strHasSub CHANGELOG_MARKER (lastNonemptyLine u) = true
      · simp [generateAddonChangelog, hok, hu, hmark2]
      · simp [generateAddonChangelog, hok, hu, hmark2]

def c6Env : ChangelogEnv := ⟨fun s => s, fun _ _ _ c => c ++ "entry\n", true⟩

def c6File : String := "# Changelog\n\nentry\n" ++ markerBlock

/-- Witness for C6: an up-to-date add-on with a marker-carrying changelog
is left untouched. -/
theorem state_a_skip_noop_witness :
    generateAddonChangelog CHANNEL_STABLE true true demoRel none [] none []
      c6Env (some c6File) = ⟨some c6File, false, false⟩ :=
  (state_a_skip_noop c6Env demoRel none [] none [] c6File (by decide)).1

end RepoUpdater
